import Mathlib

/-!
# Verification of the Zeiterfassung time-tracking core

Shallow embedding of the server's time-segment state machine
(`Arbeitszeiten` table plus the lifecycle endpoints), its midnight-cutoff
reconciliation (`handleStaleTimer` / `getMidnightCutoffTime` /
`isTimerFromPreviousDay`) and the aggregation helpers
(`getTodayWorkTimeHelper`, `getVacationHoursForPeriodHelper`).

Timestamps are modelled as natural numbers counting milliseconds of local
wall-clock time (the deployment runs with a fixed local offset; durations
computed as differences agree with the JS epoch-millisecond differences).
The local calendar date of a timestamp is its day index `t / msPerDay`,
mirroring `toLocaleDateString('en-CA')` which extracts the local Y-M-D.
-/

namespace Zeiterfassung

abbrev Ms := Nat

def msPerDay : Nat := 86400000

/-- Milliseconds of 23:59:00 within a day. -/
def cutoff2359 : Nat := 86340000

/-- Local calendar day index of a timestamp. -/
def dayOf (t : Ms) : Nat := t / msPerDay

/-- Helper `getMidnightCutoffTime`: 23:59:00 local time on the calendar day of `t`. -/
def getMidnightCutoffTime (t : Ms) : Ms := dayOf t * msPerDay + cutoff2359

/-- Predicate `isTimerFromPreviousDay`: local calendar date of the start differs from today's. -/
def isTimerFromPreviousDay (startTime now : Ms) : Bool :=
  dayOf startTime != dayOf now

/-- The fixed marker note written by `handleStaleTimer` into the notification row. -/
def autoCutoffBericht : String :=
  "Auto cut-off Notification: Timer wurde automatisch um 23:59 des vorherigen Tages beendet. Original-Arbeitszeit wurde bis zur Abschaltzeit verlängert."

/-- One row of the `Arbeitszeiten` table. `endZeit = none` means the segment is open. -/
structure Segment where
  id : Nat
  benutzerId : Nat
  startZeit : Ms
  endZeit : Option Ms
  bericht : String
deriving Repr, DecidableEq

/-- The `Arbeitszeiten` table together with its auto-increment counter. -/
structure Store where
  segments : List Segment
  nextId : Nat
deriving Repr, DecidableEq

/-- Query `SELECT ... WHERE benutzerId = ? AND endZeit IS NULL` (in table order). -/
def openSegmentsFor (u : Nat) (s : Store) : List Segment :=
  s.segments.filter (fun g => g.benutzerId == u && g.endZeit == none)

/-- Statement `UPDATE Arbeitszeiten SET endZeit = ? WHERE id = ?` (used by `handleStaleTimer`). -/
def setEndZeit (id : Nat) (endT : Ms) (s : Store) : Store :=
  { s with segments :=
      s.segments.map (fun g => if g.id == id then { g with endZeit := some endT } else g) }

/-- Statement `UPDATE Arbeitszeiten SET endZeit = ?, bericht = ? WHERE id = ?` (pause, end_workday). -/
def setEndZeitBericht (id : Nat) (endT : Ms) (b : String) (s : Store) : Store :=
  { s with segments :=
      s.segments.map (fun g =>
        if g.id == id then { g with endZeit := some endT, bericht := b } else g) }

/-- Statement `INSERT INTO Arbeitszeiten (benutzerId, startZeit, endZeit, bericht) VALUES ...`. -/
def insertSegment (u : Nat) (st : Ms) (en : Option Ms) (b : String) (s : Store) : Store :=
  { segments := s.segments ++ [⟨s.nextId, u, st, en, b⟩], nextId := s.nextId + 1 }

/-- Statement `DELETE FROM Arbeitszeiten WHERE id = ?`. -/
def deleteSegmentById (id : Nat) (s : Store) : Store :=
  { s with segments := s.segments.filter (fun g => g.id != id) }

/-- Function `handleStaleTimer`: close the stale row at 23:59:00 of its start day, then
insert the zero-duration auto-cutoff notification row carrying the marker note. -/
def handleStaleTimer (timerId benutzerId : Nat) (startTime : Ms) (s : Store) : Store :=
  let cutoffTime := getMidnightCutoffTime startTime
  insertSegment benutzerId cutoffTime (some cutoffTime) autoCutoffBericht
    (setEndZeit timerId cutoffTime s)

/-- Duration of a (closed) row, `endZeit - startZeit` in milliseconds. -/
def segDurationMs (g : Segment) : Int :=
  (g.endZeit.getD 0 : Int) - (g.startZeit : Int)

/-- Query `SELECT ... WHERE benutzerId = ? AND DATE(startZeit) = today AND endZeit IS NOT NULL`. -/
def todayClosedRows (now : Ms) (u : Nat) (s : Store) : List Segment :=
  s.segments.filter (fun g =>
    g.benutzerId == u && dayOf g.startZeit == dayOf now && g.endZeit.isSome)

/-- The accumulation loop `if (durationMs > 0) totalDurationMs += durationMs`. -/
def sumPositive (l : List Int) : Int :=
  l.foldl (fun acc d => if d > 0 then acc + d else acc) 0

/-- Helper `getTodayWorkTimeHelper`: total of the positive durations of today's closed rows.
The inline computation in the `status` endpoint is identical. -/
def getTodayWorkTimeHelper (now : Ms) (u : Nat) (s : Store) : Int :=
  sumPositive ((todayClosedRows now u s).map segDurationMs)

inductive StartResult
  | ok
  | alreadyActive
deriving Repr, DecidableEq

/-- Endpoint `POST /api/zeiterfassung/start_segment`: under the row lock, an existing open
row aborts with "Es läuft bereits ein aktiver Timer."; otherwise a fresh open row
with `startZeit = now`, `endZeit = NULL`, empty bericht is inserted. -/
def startSegment (now : Ms) (u : Nat) (s : Store) : StartResult × Store :=
  if (openSegmentsFor u s).isEmpty then
    (.ok, insertSegment u now none "" s)
  else
    (.alreadyActive, s)

def MINIMUM_DURATION_MS : Int := 30000

inductive PauseResult
  | noActive
  | autoEnded
  | discarded
  | ok
deriving Repr, DecidableEq

/-- Tail of `pause_segment` once the open row `r` is to be closed or discarded:
a duration strictly below 30 s deletes the row instead of closing it. -/
def pauseFinish (now : Ms) (u : Nat) (bericht : String) (r : Segment) (s1 : Store) :
    PauseResult × Store :=
  if ((now : Int) - (r.startZeit : Int)) < MINIMUM_DURATION_MS then
    (.discarded, deleteSegmentById r.id s1)
  else
    (.ok, setEndZeitBericht r.id now bericht s1)

/-- Endpoint `POST /api/zeiterfassung/pause_segment`. When the stale-timer handling leaves
no open row (always, given the single-open invariant) the code ROLLS BACK the
transaction and answers with the auto-ended message: the store reverts to its
pre-call state (`autoEnded`). -/
def pauseSegment (now : Ms) (u : Nat) (bericht : String) (s : Store) : PauseResult × Store :=
  match openSegmentsFor u s with
  | [] => (.noActive, s)
  | r :: _ =>
    if isTimerFromPreviousDay r.startZeit now then
      if (openSegmentsFor u (handleStaleTimer r.id u r.startZeit s)).isEmpty then
        (.autoEnded, s)
      else
        pauseFinish now u bericht r (handleStaleTimer r.id u r.startZeit s)
    else
      pauseFinish now u bericht r s

def workdayDurationMs : Int := 28800000

inductive EndResult
  | autoEnded
  | tooShortQuotaMet
  | tooShortMoreTime (workedMs remainingMs : Int)
  | quotaMet (workedMs : Int)
  | moreTime (workedMs remainingMs : Int)
  | nothingLogged
  | alreadyMetPaused
  | moreTimePaused (remainingMs : Int)
deriving Repr, DecidableEq

/-- Tail of `end_workday` once an open row `r` is to be closed or discarded.
Every branch commits before responding. -/
def endWorkdayFinish (now : Ms) (u : Nat) (bericht : String) (r : Segment) (s1 : Store) :
    EndResult × Store :=
  if ((now : Int) - (r.startZeit : Int)) < MINIMUM_DURATION_MS then
    if workdayDurationMs - getTodayWorkTimeHelper now u (deleteSegmentById r.id s1) ≤ 0 then
      (.tooShortQuotaMet, deleteSegmentById r.id s1)
    else
      (.tooShortMoreTime (getTodayWorkTimeHelper now u (deleteSegmentById r.id s1))
        (workdayDurationMs - getTodayWorkTimeHelper now u (deleteSegmentById r.id s1)),
        deleteSegmentById r.id s1)
  else
    if workdayDurationMs - getTodayWorkTimeHelper now u (setEndZeitBericht r.id now bericht s1) ≤ 0 then
      (.quotaMet (getTodayWorkTimeHelper now u (setEndZeitBericht r.id now bericht s1)),
        setEndZeitBericht r.id now bericht s1)
    else
      (.moreTime (getTodayWorkTimeHelper now u (setEndZeitBericht r.id now bericht s1))
        (workdayDurationMs - getTodayWorkTimeHelper now u (setEndZeitBericht r.id now bericht s1)),
        setEndZeitBericht r.id now bericht s1)

/-- Endpoint `POST /api/zeiterfassung/end_workday`. Unlike `pause`, the stale-timer branch
COMMITS the reconciliation before answering (`autoEnded` keeps the reconciled
store). All quota branches commit before responding, so the closed/deleted
segment is persisted even when the 8-hour quota is not met. -/
def endWorkday (now : Ms) (u : Nat) (bericht : String) (s : Store) : EndResult × Store :=
  match openSegmentsFor u s with
  | [] =>
    if getTodayWorkTimeHelper now u s == 0 then (.nothingLogged, s)
    else
      if workdayDurationMs - getTodayWorkTimeHelper now u s ≤ 0 then (.alreadyMetPaused, s)
      else (.moreTimePaused (workdayDurationMs - getTodayWorkTimeHelper now u s), s)
  | r :: _ =>
    if isTimerFromPreviousDay r.startZeit now then
      if (openSegmentsFor u (handleStaleTimer r.id u r.startZeit s)).isEmpty then
        (.autoEnded, handleStaleTimer r.id u r.startZeit s)
      else
        endWorkdayFinish now u bericht r (handleStaleTimer r.id u r.startZeit s)
    else
      endWorkdayFinish now u bericht r s

structure StatusResp where
  totalDurationMs : Int
  activeSegmentStartTime : Option Ms
  autoCutoffDetected : Bool
deriving Repr, DecidableEq

/-- Tail of the `status` endpoint: total over today's closed rows of the
(possibly reconciled) store; the active start time is re-queried only when no
auto-cutoff was just performed. -/
def statusFinish (now : Ms) (u : Nat) (detected : Bool) (s1 : Store)
    (session1 : List Nat) : StatusResp × Store × List Nat :=
  (⟨getTodayWorkTimeHelper now u s1,
    if detected then none
    else
      match openSegmentsFor u s1 with
      | [] => none
      | r :: _ => some r.startZeit,
    detected⟩, s1, session1)

/-- Endpoint `GET /api/zeiterfassung/status`. The session's `autocut_handled_<id>` flags are
modelled as the list of handled timer ids. A stale open timer whose id is not yet
flagged is reconciled (autocommit, no transaction) and flagged. -/
def statusOp (now : Ms) (u : Nat) (session : List Nat) (s : Store) :
    StatusResp × Store × List Nat :=
  match openSegmentsFor u s with
  | [] => statusFinish now u false s session
  | r :: _ =>
    if isTimerFromPreviousDay r.startZeit now then
      if session.contains r.id then statusFinish now u false s session
      else statusFinish now u true (handleStaleTimer r.id u r.startZeit s) (r.id :: session)
    else statusFinish now u false s session

/-- Endpoint `POST /api/admin/berichte` (typ 'Arbeit'): inserts a row with both
`startZeit` and `endZeit` set — never an open row. -/
def adminInsertBericht (u : Nat) (st en : Ms) (b : String) (s : Store) : Store :=
  insertSegment u st (some en) b s

/-- Endpoint `PUT /api/admin/berichte/:id`: rewrites bericht, startZeit and endZeit of the
row; the new `endZeit` is always a concrete datetime, never NULL. -/
def adminEditBericht (id : Nat) (b : String) (st en : Ms) (s : Store) : Store :=
  { s with segments := s.segments.map (fun g =>
      if g.id == id then { g with bericht := b, startZeit := st, endZeit := some en } else g) }

/-! ## Vacation aggregation (`getVacationHoursForPeriodHelper`) -/

inductive AbwesenheitTyp
  | urlaub
  | krankheit
deriving Repr, DecidableEq

/-- One row of the `Abwesenheiten` table; dates are UTC calendar-day indices. -/
structure Abwesenheit where
  benutzerId : Nat
  startDatum : Nat
  endDatum : Nat
  typ : AbwesenheitTyp
deriving Repr, DecidableEq

def HOURS_PER_URLAUBSTAG_GLOBAL : Nat := 8

/-- Weekday as `getUTCDay` yields it, on a day index: day 0 (1970-01-01) was a Thursday, i.e. 4. -/
def dayOfWeek (d : Nat) : Nat := (d + 4) % 7

/-- The `while (currentDateIter < loopUntilDate)` loop of the helper, iterating
one UTC day at a time and crediting 8 hours for each weekday that lies inside
the report period. `fuel` is the number of remaining iterations. -/
def countHoursFrom (pStart pEnd : Nat) : Nat → Nat → Nat
  | _, 0 => 0
  | d, fuel + 1 =>
    (if pStart ≤ d ∧ d ≤ pEnd ∧ dayOfWeek d ≠ 0 ∧ dayOfWeek d ≠ 6
      then HOURS_PER_URLAUBSTAG_GLOBAL else 0) +
    countHoursFrom pStart pEnd (d + 1) fuel

/-- Helper `getVacationHoursForPeriodHelper`: the SQL fetches the user's 'Urlaub' rows
overlapping the period (`start_datum <= periodEnd AND end_datum >= periodStart`);
each is iterated from its start to its end date inclusive. -/
def getVacationHoursForPeriodHelper (abw : List Abwesenheit) (u pStart pEnd : Nat) : Nat :=
  ((abw.filter (fun a =>
      a.benutzerId == u && a.typ == AbwesenheitTyp.urlaub &&
      decide (a.startDatum ≤ pEnd) && decide (pStart ≤ a.endDatum))).foldl
    (fun acc a => acc + countHoursFrom pStart pEnd a.startDatum (a.endDatum + 1 - a.startDatum)) 0)

/-- Endpoint `GET /api/users/me/profile`: `Math.max(0, totalUrlaubstage - usedUrlaubstageThisYear)`. -/
def selfProfileRemainingUrlaubstage (allowance : Nat) (abw : List Abwesenheit)
    (u yStart yEnd : Nat) : ℚ :=
  max 0 ((allowance : ℚ) -
    (getVacationHoursForPeriodHelper abw u yStart yEnd : ℚ) / (HOURS_PER_URLAUBSTAG_GLOBAL : ℚ))

/-- Endpoint `GET /api/praktikanten` (admin list): also `Math.max(0, ...)`. -/
def adminListRemainingUrlaubstage (allowance : Nat) (abw : List Abwesenheit)
    (u yStart yEnd : Nat) : ℚ :=
  max 0 ((allowance : ℚ) -
    (getVacationHoursForPeriodHelper abw u yStart yEnd : ℚ) / (HOURS_PER_URLAUBSTAG_GLOBAL : ℚ))

/-- Endpoint `GET /api/admin/users/:id/profile`: plain subtraction, no flooring at 0. -/
def adminProfileRemainingUrlaubstage (allowance : Nat) (abw : List Abwesenheit)
    (u yStart yEnd : Nat) : ℚ :=
  (allowance : ℚ) -
    (getVacationHoursForPeriodHelper abw u yStart yEnd : ℚ) / (HOURS_PER_URLAUBSTAG_GLOBAL : ℚ)

/-! ## Transaction model for the reconciler's two writes -/

inductive DbWrite
  | setEnd (id : Nat) (endT : Ms)
  | insertRow (u : Nat) (st : Ms) (en : Option Ms) (b : String)
deriving Repr, DecidableEq

def applyWrite (s : Store) : DbWrite → Store
  | .setEnd id t => setEndZeit id t s
  | .insertRow u st en b => insertSegment u st en b s

def applyWrites (ws : List DbWrite) (s : Store) : Store := ws.foldl applyWrite s

/-- The two SQL statements executed by `handleStaleTimer`, in order. -/
def staleTimerWrites (timerId u : Nat) (startTime : Ms) : List DbWrite :=
  let c := getMidnightCutoffTime startTime
  [DbWrite.setEnd timerId c, DbWrite.insertRow u c (some c) autoCutoffBericht]

/-- The `status` endpoint calls `handleStaleTimer` on a plain pool connection with
no `beginTransaction`: MySQL autocommits each statement, so when a failure is
raised after the first `k` statements those `k` writes stay persisted. -/
def statusReconcileRun (failAfter : Option Nat) (timerId u : Nat) (st : Ms) (s : Store) :
    Store :=
  match failAfter with
  | none => applyWrites (staleTimerWrites timerId u st) s
  | some k => applyWrites ((staleTimerWrites timerId u st).take k) s

/-- Endpoints `pause_segment` and `end_workday` call `handleStaleTimer` inside
`beginTransaction`, with `rollback` in the catch handler: a failure at any point
undoes every write of the transaction. -/
def txnReconcileRun (failAfter : Option Nat) (timerId u : Nat) (st : Ms) (s : Store) :
    Store :=
  match failAfter with
  | none => applyWrites (staleTimerWrites timerId u st) s
  | some _ => s

/-! ## Claim-side (specification-worded) definitions, for refinement claims -/

/-- Modelled from the spec's words for C5: "sum of `(endTime - startTime)` over all
closed segments starting on that calendar date; segments still open contribute
`(now - startTime)`". Compared against the source-derived `getTodayWorkTimeHelper`
and `statusOp`. -/
def specDailyWorkedMs (now : Ms) (u : Nat) (s : Store) : Int :=
  ((todayClosedRows now u s).map segDurationMs).sum +
    (match openSegmentsFor u s with
     | [] => 0
     | g :: _ => (now : Int) - (g.startZeit : Int))

/-- Spec-side weekday-count for C8: the days lying inside BOTH the absence range
and the requested period that fall on Monday..Friday. -/
def specVacationDayCount (pStart pEnd aStart aEnd : Nat) : Nat :=
  ((Finset.Icc aStart aEnd ∩ Finset.Icc pStart pEnd).filter
    (fun d => dayOfWeek d ≠ 0 ∧ dayOfWeek d ≠ 6)).card

/-- Spec-side total for C8: 8 hours per counted weekday, summed over the user's
Vacation absences. -/
def specVacationHours (abw : List Abwesenheit) (u pStart pEnd : Nat) : Nat :=
  ((abw.filter (fun a => a.benutzerId == u && a.typ == AbwesenheitTyp.urlaub)).map
    (fun a => HOURS_PER_URLAUBSTAG_GLOBAL * specVacationDayCount pStart pEnd a.startDatum a.endDatum)).sum

/-! ## Invariants -/

/-- At most one open row per user. -/
def OpenInvariant (s : Store) : Prop :=
  ∀ u, (openSegmentsFor u s).length ≤ 1

/-- Every stored row's id is below the auto-increment counter. -/
def IdsFresh (s : Store) : Prop :=
  ∀ g ∈ s.segments, g.id < s.nextId

/-! ## Supporting lemmas -/

lemma openSegmentsFor_insert_closed (u v : Nat) (st e : Ms) (b : String) (s : Store) :
    openSegmentsFor u (insertSegment v st (some e) b s) = openSegmentsFor u s := by
  unfold openSegmentsFor insertSegment
  rw [List.filter_append]
  simp

lemma openSegmentsFor_insert_open (u : Nat) (st : Ms) (b : String) (s : Store) :
    openSegmentsFor u (insertSegment u st none b s) =
      openSegmentsFor u s ++ [⟨s.nextId, u, st, none, b⟩] := by
  unfold openSegmentsFor insertSegment
  rw [List.filter_append]
  simp

lemma openSegmentsFor_insert_open_other (u v : Nat) (st : Ms) (b : String) (s : Store)
    (h : v ≠ u) :
    openSegmentsFor u (insertSegment v st none b s) = openSegmentsFor u s := by
  unfold openSegmentsFor insertSegment
  rw [List.filter_append]
  simp [h]

/-- A pointwise-update (`map f`) can only shrink the rows selected by `p`,
provided `f` never makes `p` newly true. -/
lemma length_filter_map_le (f : Segment → Segment) (p : Segment → Bool)
    (h : ∀ g, p (f g) = true → p g = true) :
    ∀ l : List Segment, ((l.map f).filter p).length ≤ (l.filter p).length := by
  intro l
  induction l with
  | nil => simp
  | cons g t ih =>
    simp only [List.map_cons, List.filter_cons]
    by_cases hpf : p (f g) = true
    · rw [if_pos hpf, if_pos (h g hpf)]
      simpa using Nat.succ_le_succ ih
    · rw [if_neg hpf]
      split
      · exact Nat.le_succ_of_le ih
      · exact ih

lemma length_openSegmentsFor_setEndZeit_le (u id : Nat) (t : Ms) (s : Store) :
    (openSegmentsFor u (setEndZeit id t s)).length ≤ (openSegmentsFor u s).length := by
  unfold openSegmentsFor setEndZeit
  apply length_filter_map_le
  intro g hg
  by_cases hid : (g.id == id) = true
  · rw [if_pos hid] at hg
    simp at hg
  · rwa [if_neg hid] at hg

lemma length_openSegmentsFor_setEndZeitBericht_le (u id : Nat) (t : Ms) (b : String)
    (s : Store) :
    (openSegmentsFor u (setEndZeitBericht id t b s)).length ≤
      (openSegmentsFor u s).length := by
  unfold openSegmentsFor setEndZeitBericht
  apply length_filter_map_le
  intro g hg
  by_cases hid : (g.id == id) = true
  · rw [if_pos hid] at hg
    simp at hg
  · rwa [if_neg hid] at hg

lemma length_openSegmentsFor_adminEdit_le (u id : Nat) (b : String) (st en : Ms)
    (s : Store) :
    (openSegmentsFor u (adminEditBericht id b st en s)).length ≤
      (openSegmentsFor u s).length := by
  unfold openSegmentsFor adminEditBericht
  apply length_filter_map_le
  intro g hg
  by_cases hid : (g.id == id) = true
  · rw [if_pos hid] at hg
    simp at hg
  · rwa [if_neg hid] at hg

lemma length_openSegmentsFor_delete_le (u id : Nat) (s : Store) :
    (openSegmentsFor u (deleteSegmentById id s)).length ≤
      (openSegmentsFor u s).length := by
  unfold openSegmentsFor deleteSegmentById
  exact ((List.filter_sublist s.segments).filter _).length_le

lemma length_openSegmentsFor_handleStaleTimer_le (u timerId v : Nat) (st : Ms) (s : Store) :
    (openSegmentsFor u (handleStaleTimer timerId v st s)).length ≤
      (openSegmentsFor u s).length := by
  unfold handleStaleTimer
  rw [openSegmentsFor_insert_closed]
  exact length_openSegmentsFor_setEndZeit_le u timerId _ s

/-- When the user's only open row is `r`, reconciling it leaves no open row. -/
lemma openSegmentsFor_handleStaleTimer_of_single (u : Nat) (r : Segment) (s : Store)
    (h : openSegmentsFor u s = [r]) :
    openSegmentsFor u (handleStaleTimer r.id u r.startZeit s) = [] := by
  unfold handleStaleTimer
  rw [openSegmentsFor_insert_closed]
  unfold openSegmentsFor setEndZeit
  rw [List.filter_eq_nil_iff]
  intro g hg
  simp only [List.mem_map] at hg
  obtain ⟨g0, hg0mem, hg0eq⟩ := hg
  by_cases hid : (g0.id == r.id) = true
  · rw [if_pos hid] at hg0eq
    subst hg0eq
    simp
  · rw [if_neg hid] at hg0eq
    subst hg0eq
    intro hcontra
    have hmem : g0 ∈ openSegmentsFor u s := by
      unfold openSegmentsFor
      rw [List.mem_filter]
      exact ⟨hg0mem, hcontra⟩
    rw [h] at hmem
    simp only [List.mem_singleton] at hmem
    subst hmem
    simp at hid

lemma length_open_pauseFinish_le (now : Ms) (u v : Nat) (b : String) (r : Segment)
    (s1 : Store) :
    (openSegmentsFor v (pauseFinish now u b r s1).2).length ≤
      (openSegmentsFor v s1).length := by
  unfold pauseFinish
  split
  · exact length_openSegmentsFor_delete_le v r.id s1
  · exact length_openSegmentsFor_setEndZeitBericht_le v r.id now b s1

lemma length_open_pause_le (now : Ms) (u : Nat) (b : String) (s : Store) (v : Nat) :
    (openSegmentsFor v (pauseSegment now u b s).2).length ≤
      (openSegmentsFor v s).length := by
  unfold pauseSegment
  split
  · exact le_refl _
  · next r rest heq =>
    split
    · split
      · exact le_refl _
      · exact le_trans (length_open_pauseFinish_le now u v b r _)
          (length_openSegmentsFor_handleStaleTimer_le v r.id u r.startZeit s)
    · exact length_open_pauseFinish_le now u v b r s

lemma length_open_endFinish_le (now : Ms) (u v : Nat) (b : String) (r : Segment)
    (s1 : Store) :
    (openSegmentsFor v (endWorkdayFinish now u b r s1).2).length ≤
      (openSegmentsFor v s1).length := by
  unfold endWorkdayFinish
  split
  · split
    · exact length_openSegmentsFor_delete_le v r.id s1
    · exact length_openSegmentsFor_delete_le v r.id s1
  · split
    · exact length_openSegmentsFor_setEndZeitBericht_le v r.id now b s1
    · exact length_openSegmentsFor_setEndZeitBericht_le v r.id now b s1

lemma length_open_endWorkday_le (now : Ms) (u : Nat) (b : String) (s : Store) (v : Nat) :
    (openSegmentsFor v (endWorkday now u b s).2).length ≤
      (openSegmentsFor v s).length := by
  unfold endWorkday
  split
  · split
    · exact le_refl _
    · split
      · exact le_refl _
      · exact le_refl _
  · next r rest heq =>
    split
    · split
      · exact length_openSegmentsFor_handleStaleTimer_le v r.id u r.startZeit s
      · exact le_trans (length_open_endFinish_le now u v b r _)
          (length_openSegmentsFor_handleStaleTimer_le v r.id u r.startZeit s)
    · exact length_open_endFinish_le now u v b r s

lemma length_open_status_le (now : Ms) (u : Nat) (session : List Nat) (s : Store)
    (v : Nat) :
    (openSegmentsFor v (statusOp now u session s).2.1).length ≤
      (openSegmentsFor v s).length := by
  unfold statusOp statusFinish
  split
  · exact le_refl _
  · next r rest heq =>
    split
    · split
      · exact le_refl _
      · exact length_openSegmentsFor_handleStaleTimer_le v r.id u r.startZeit s
    · exact le_refl _

lemma openInvariant_start (now : Ms) (u : Nat) (s : Store) (h : OpenInvariant s) :
    OpenInvariant (startSegment now u s).2 := by
  unfold startSegment
  split
  · next hempty =>
    intro v
    by_cases hv : v = u
    · subst hv
      rw [openSegmentsFor_insert_open]
      rw [List.isEmpty_iff] at hempty
      simp [hempty]
    · rw [openSegmentsFor_insert_open_other v u now "" s (fun hc => hv hc.symm)]
      exact h v
  · exact h

/-- When no summand is negative, the `if (durationMs > 0)` accumulation is the
plain sum. -/
lemma sumPositive_eq_sum (l : List Int) (h : ∀ x ∈ l, 0 ≤ x) : sumPositive l = l.sum := by
  have key : ∀ (l : List Int) (a : Int), (∀ x ∈ l, 0 ≤ x) →
      l.foldl (fun acc d => if d > 0 then acc + d else acc) a = a + l.sum := by
    intro l
    induction l with
    | nil => intro a _; simp
    | cons x xs ih =>
      intro a hx
      have hx0 : 0 ≤ x := hx x (List.mem_cons_self x xs)
      have hxs : ∀ y ∈ xs, 0 ≤ y := fun y hy => hx y (List.mem_cons_of_mem x hy)
      simp only [List.foldl_cons, List.sum_cons]
      rcases lt_or_eq_of_le hx0 with hlt | heq
      · rw [if_pos hlt, ih (a + x) hxs]
        ring
      · rw [if_neg (by omega), ih a hxs, ← heq]
        ring
  unfold sumPositive
  rw [key l 0 h, zero_add]

/-- Rows selected by `todayClosedRows` under the end-after-start invariant have
nonnegative durations. -/
lemma todayClosedRows_duration_nonneg (now : Ms) (u : Nat) (s : Store)
    (hwf : ∀ g ∈ s.segments, ∀ e, g.endZeit = some e → g.startZeit ≤ e) :
    ∀ x ∈ (todayClosedRows now u s).map segDurationMs, 0 ≤ x := by
  intro x hx
  obtain ⟨g, hg, hgx⟩ := List.mem_map.mp hx
  have hmem := List.mem_filter.mp hg
  have hsome : g.endZeit.isSome := by
    have hb := hmem.2
    simp only [Bool.and_eq_true] at hb
    exact hb.2
  obtain ⟨e, he⟩ := Option.isSome_iff_exists.mp hsome
  have hle := hwf g hmem.1 e he
  subst hgx
  unfold segDurationMs
  rw [he]
  simp only [Option.getD_some]
  have hle' : (g.startZeit : Int) ≤ (e : Int) := by exact_mod_cast hle
  omega

/-- Deleting the just-inserted row (its id is the fresh `nextId`) restores the
original row list. -/
lemma delete_insert_segments (u : Nat) (st : Ms) (en : Option Ms) (b : String) (s : Store)
    (hfresh : IdsFresh s) :
    (deleteSegmentById s.nextId (insertSegment u st en b s)).segments = s.segments := by
  unfold deleteSegmentById insertSegment
  simp only
  rw [List.filter_append]
  have h1 : s.segments.filter (fun g => g.id != s.nextId) = s.segments := by
    apply List.filter_eq_self.mpr
    intro g hg
    simpa using Nat.ne_of_lt (hfresh g hg)
  rw [h1]
  simp

/-- The daily total depends only on the row list. -/
lemma getTodayWorkTimeHelper_congr (now : Ms) (u : Nat) (s1 s2 : Store)
    (h : s1.segments = s2.segments) :
    getTodayWorkTimeHelper now u s1 = getTodayWorkTimeHelper now u s2 := by
  unfold getTodayWorkTimeHelper todayClosedRows
  rw [h]

/-- The day-iteration loop counts exactly the weekdays of `[d, d+fuel)` that lie
in the report period, 8 hours each. -/
lemma countHoursFrom_eq_card (pStart pEnd : Nat) :
    ∀ (fuel d : Nat),
      countHoursFrom pStart pEnd d fuel =
        HOURS_PER_URLAUBSTAG_GLOBAL *
          ((Finset.Ico d (d + fuel)).filter
            (fun x => pStart ≤ x ∧ x ≤ pEnd ∧ dayOfWeek x ≠ 0 ∧ dayOfWeek x ≠ 6)).card := by
  intro fuel
  induction fuel with
  | zero =>
    intro d
    simp [countHoursFrom]
  | succ n ih =>
    intro d
    have hins : Finset.Ico d (d + (n + 1)) = insert d (Finset.Ico (d + 1) (d + 1 + n)) := by
      have h1 : d + (n + 1) = d + 1 + n := by omega
      rw [h1]
      exact (Nat.Ico_insert_succ_left (by omega)).symm
    have hdnot : d ∉ Finset.Ico (d + 1) (d + 1 + n) := by
      simp [Finset.mem_Ico]
    rw [hins]
    unfold countHoursFrom
    rw [Finset.filter_insert]
    by_cases hP : pStart ≤ d ∧ d ≤ pEnd ∧ dayOfWeek d ≠ 0 ∧ dayOfWeek d ≠ 6
    · rw [if_pos hP, if_pos hP, Finset.card_insert_of_not_mem (fun hc =>
        hdnot (Finset.mem_of_mem_filter d hc)), ih (d + 1)]
      ring
    · rw [if_neg hP, if_neg hP, ih (d + 1)]
      ring

/-- Per absence, the loop credit equals 8 times the spec-side weekday count of the
intersection of the absence range with the period. -/
lemma countHoursFrom_absence (pStart pEnd aStart aEnd : Nat) :
    countHoursFrom pStart pEnd aStart (aEnd + 1 - aStart) =
      HOURS_PER_URLAUBSTAG_GLOBAL * specVacationDayCount pStart pEnd aStart aEnd := by
  by_cases h : aStart ≤ aEnd
  · have hfull : aStart + (aEnd + 1 - aStart) = aEnd + 1 := by omega
    rw [countHoursFrom_eq_card, hfull]
    unfold specVacationDayCount
    congr 1
    have hIcc : Finset.Ico aStart (aEnd + 1) = Finset.Icc aStart aEnd :=
      Nat.Ico_succ_right aStart aEnd
    rw [hIcc]
    congr 1
    ext x
    simp only [Finset.mem_filter, Finset.mem_inter, Finset.mem_Icc]
    tauto
  · have hz : aEnd + 1 - aStart = 0 := by omega
    rw [hz]
    unfold countHoursFrom specVacationDayCount
    rw [Finset.Icc_eq_empty (by omega)]
    simp

lemma specVacationDayCount_zero_of_no_overlap (pStart pEnd aStart aEnd : Nat)
    (h : ¬(aStart ≤ pEnd ∧ pStart ≤ aEnd)) :
    specVacationDayCount pStart pEnd aStart aEnd = 0 := by
  unfold specVacationDayCount
  rw [Finset.card_eq_zero, Finset.filter_eq_empty_iff]
  intro x hx
  rw [Finset.mem_inter, Finset.mem_Icc, Finset.mem_Icc] at hx
  exact absurd ⟨by omega, by omega⟩ h

lemma foldl_add_eq_sum (f : Abwesenheit → Nat) :
    ∀ (l : List Abwesenheit) (init : Nat),
      l.foldl (fun acc a => acc + f a) init = init + (l.map f).sum := by
  intro l
  induction l with
  | nil => intro init; simp
  | cons a t ih =>
    intro init
    simp only [List.foldl_cons, List.map_cons, List.sum_cons]
    rw [ih (init + f a)]
    ring

/-- Dropping a second filter conjunct is harmless when the summand vanishes
wherever that conjunct fails. -/
lemma sum_map_filter_and (p q : Abwesenheit → Bool) (f : Abwesenheit → Nat)
    (h : ∀ a, p a = true → q a = false → f a = 0) :
    ∀ l : List Abwesenheit,
      ((l.filter (fun a => p a && q a)).map f).sum = ((l.filter p).map f).sum := by
  intro l
  induction l with
  | nil => rfl
  | cons a t ih =>
    simp only [List.filter_cons]
    by_cases hp : p a = true
    · by_cases hq : q a = true
      · simp [hp, hq, ih]
      · have hq' : q a = false := by
          revert hq
          cases q a <;> simp
        simp [hp, hq', h a hp hq', ih]
    · have hp' : p a = false := by
        revert hp
        cases p a <;> simp
      simp [hp', ih]

/-! ## Claim theorems -/

/-- C1: for every user whose open segment started on a local calendar day strictly
before today's, running the Cutoff Reconciler (the stale branch of the `status`
endpoint, i.e. `handleStaleTimer`) closes that segment at 23:59:00 local time on
the day the segment started — not on the current day — and inserts a zero-duration
notification segment with `startZeit = endZeit =` that cutoff timestamp, carrying
the fixed auto-cutoff marker note. -/
theorem C1_reconciler_cutoff (now : Ms) (u : Nat) (session : List Nat) (s : Store)
    (r : Segment) (rest : List Segment)
    (hhead : openSegmentsFor u s = r :: rest)
    (hstale : dayOf r.startZeit < dayOf now)
    (hsess : session.contains r.id = false) :
    (statusOp now u session s).2.1 = handleStaleTimer r.id u r.startZeit s ∧
    getMidnightCutoffTime r.startZeit = dayOf r.startZeit * msPerDay + cutoff2359 ∧
    dayOf (getMidnightCutoffTime r.startZeit) = dayOf r.startZeit ∧
    dayOf (getMidnightCutoffTime r.startZeit) ≠ dayOf now ∧
    (∃ g ∈ (statusOp now u session s).2.1.segments,
      g.id = r.id ∧ g.startZeit = r.startZeit ∧
      g.endZeit = some (getMidnightCutoffTime r.startZeit)) ∧
    (∃ g ∈ (statusOp now u session s).2.1.segments,
      g.startZeit = getMidnightCutoffTime r.startZeit ∧
      g.endZeit = some (getMidnightCutoffTime r.startZeit) ∧
      g.bericht = autoCutoffBericht) := by
  have hne : isTimerFromPreviousDay r.startZeit now = true := by
    unfold isTimerFromPreviousDay
    simp [Nat.ne_of_lt hstale]
  have hnotmem : r.id ∉ session := by simpa using hsess
  have hs' : (statusOp now u session s).2.1 = handleStaleTimer r.id u r.startZeit s := by
    unfold statusOp statusFinish
    simp [hhead, hne, hnotmem]
  have hday : dayOf (getMidnightCutoffTime r.startZeit) = dayOf r.startZeit := by
    unfold getMidnightCutoffTime dayOf
    rw [Nat.mul_comm, Nat.mul_add_div (by norm_num [msPerDay])]
    norm_num [msPerDay, cutoff2359]
  refine ⟨hs', rfl, hday, ?_, ?_, ?_⟩
  · rw [hday]
    exact Nat.ne_of_lt hstale
  · rw [hs']
    have hrmem : r ∈ s.segments := by
      have : r ∈ openSegmentsFor u s := by
        rw [hhead]
        exact List.mem_cons_self r rest
      exact (List.mem_filter.mp this).1
    refine ⟨{ r with endZeit := some (getMidnightCutoffTime r.startZeit) }, ?_, rfl, rfl, rfl⟩
    unfold handleStaleTimer insertSegment setEndZeit
    apply List.mem_append_left
    apply List.mem_map.mpr
    exact ⟨r, hrmem, by simp⟩
  · rw [hs']
    refine ⟨⟨(setEndZeit r.id (getMidnightCutoffTime r.startZeit) s).nextId, u,
      getMidnightCutoffTime r.startZeit, some (getMidnightCutoffTime r.startZeit),
      autoCutoffBericht⟩, ?_, rfl, rfl, rfl⟩
    unfold handleStaleTimer insertSegment
    apply List.mem_append_right
    simp

/-- C2: every operation — start, pause, endWorkday, status (which runs the
reconciler), and the admin insert/edit paths — preserves the invariant that each
user has at most one open segment; and `start` under the row lock answers
`AlreadyActive` without inserting when an open segment already exists. -/
theorem C2_single_open_invariant (now : Ms) (u w id : Nat) (note b : String)
    (session : List Nat) (st en : Ms) (s : Store) (h : OpenInvariant s) :
    OpenInvariant (startSegment now u s).2 ∧
    OpenInvariant (pauseSegment now u note s).2 ∧
    OpenInvariant (endWorkday now u note s).2 ∧
    OpenInvariant (statusOp now u session s).2.1 ∧
    OpenInvariant (adminInsertBericht w st en b s) ∧
    OpenInvariant (adminEditBericht id b st en s) ∧
    (openSegmentsFor u s ≠ [] → startSegment now u s = (.alreadyActive, s)) := by
  refine ⟨openInvariant_start now u s h, ?_, ?_, ?_, ?_, ?_, ?_⟩
  · intro v
    exact le_trans (length_open_pause_le now u note s v) (h v)
  · intro v
    exact le_trans (length_open_endWorkday_le now u note s v) (h v)
  · intro v
    exact le_trans (length_open_status_le now u session s v) (h v)
  · intro v
    unfold adminInsertBericht
    rw [openSegmentsFor_insert_closed]
    exact h v
  · intro v
    exact le_trans (length_openSegmentsFor_adminEdit_le v id b st en s) (h v)
  · intro hne
    unfold startSegment
    rw [if_neg]
    intro hc
    rw [List.isEmpty_iff] at hc
    exact hne hc

/-- Witness for C2: a one-row store (a single open segment of user 7) satisfies
the invariant; all operations preserve it and `start` refuses to double-start. -/
theorem C2_single_open_invariant_witness :
    OpenInvariant ⟨[⟨1, 7, 100, none, "x"⟩], 2⟩ ∧
    (OpenInvariant (startSegment 200 7 ⟨[⟨1, 7, 100, none, "x"⟩], 2⟩).2 ∧
      OpenInvariant (pauseSegment 200 7 "n" ⟨[⟨1, 7, 100, none, "x"⟩], 2⟩).2 ∧
      OpenInvariant (endWorkday 200 7 "n" ⟨[⟨1, 7, 100, none, "x"⟩], 2⟩).2 ∧
      OpenInvariant (statusOp 200 7 [] ⟨[⟨1, 7, 100, none, "x"⟩], 2⟩).2.1 ∧
      OpenInvariant (adminInsertBericht 9 50 80 "b" ⟨[⟨1, 7, 100, none, "x"⟩], 2⟩) ∧
      OpenInvariant (adminEditBericht 1 "b" 50 80 ⟨[⟨1, 7, 100, none, "x"⟩], 2⟩) ∧
      (openSegmentsFor 7 ⟨[⟨1, 7, 100, none, "x"⟩], 2⟩ ≠ [] →
        startSegment 200 7 ⟨[⟨1, 7, 100, none, "x"⟩], 2⟩ =
          (StartResult.alreadyActive, ⟨[⟨1, 7, 100, none, "x"⟩], 2⟩))) :=
  have hinv : OpenInvariant ⟨[⟨1, 7, 100, none, "x"⟩], 2⟩ := fun v =>
    le_trans (List.length_filter_le _ _) (by simp)
  ⟨hinv, C2_single_open_invariant 200 7 9 1 "n" "b" [] 50 80 ⟨[⟨1, 7, 100, none, "x"⟩], 2⟩ hinv⟩

/-- Witness for C1: user 7 left segment 1 open at 09:00 of day 0 and calls
`status` at 08:00 of day 1 with a fresh session. -/
theorem C1_reconciler_cutoff_witness :
    openSegmentsFor 7 ⟨[⟨1, 7, 32400000, none, "w"⟩], 2⟩ =
      (⟨1, 7, 32400000, none, "w"⟩ : Segment) :: [] ∧
    dayOf 32400000 < dayOf 115200000 ∧
    ([] : List Nat).contains 1 = false ∧
    ((statusOp 115200000 7 [] ⟨[⟨1, 7, 32400000, none, "w"⟩], 2⟩).2.1 =
        handleStaleTimer 1 7 32400000 ⟨[⟨1, 7, 32400000, none, "w"⟩], 2⟩ ∧
      getMidnightCutoffTime 32400000 = dayOf 32400000 * msPerDay + cutoff2359 ∧
      dayOf (getMidnightCutoffTime 32400000) = dayOf 32400000 ∧
      dayOf (getMidnightCutoffTime 32400000) ≠ dayOf 115200000 ∧
      (∃ g ∈ (statusOp 115200000 7 [] ⟨[⟨1, 7, 32400000, none, "w"⟩], 2⟩).2.1.segments,
        g.id = 1 ∧ g.startZeit = 32400000 ∧
        g.endZeit = some (getMidnightCutoffTime 32400000)) ∧
      (∃ g ∈ (statusOp 115200000 7 [] ⟨[⟨1, 7, 32400000, none, "w"⟩], 2⟩).2.1.segments,
        g.startZeit = getMidnightCutoffTime 32400000 ∧
        g.endZeit = some (getMidnightCutoffTime 32400000) ∧
        g.bericht = autoCutoffBericht)) :=
  ⟨by decide, by decide, by decide,
    C1_reconciler_cutoff 115200000 7 [] ⟨[⟨1, 7, 32400000, none, "w"⟩], 2⟩
      ⟨1, 7, 32400000, none, "w"⟩ [] (by decide) (by decide) (by decide)⟩

/-- Counterexample to C3: with a stale open segment (started day 0, `start` called
on day 1), `start_segment` performs no reconciliation at all — it answers
`AlreadyActive` and leaves the stale segment open. -/
theorem C3_counterexample :
    dayOf 32400000 < dayOf 115200000 ∧
    startSegment 115200000 7 ⟨[⟨1, 7, 32400000, none, "w"⟩], 2⟩ =
      (StartResult.alreadyActive, ⟨[⟨1, 7, 32400000, none, "w"⟩], 2⟩) ∧
    openSegmentsFor 7 (startSegment 115200000 7 ⟨[⟨1, 7, 32400000, none, "w"⟩], 2⟩).2 =
      [⟨1, 7, 32400000, none, "w"⟩] := by
  decide

/-- C3 amended: of the three client actions only `endWorkday` settles a stale open
segment and persists the reconciliation; `pause` detects it but rolls the
reconciliation back (reporting the auto-ended error with the segment left open),
and `start` performs no reconciliation — it fails with `AlreadyActive`, leaving
the stale segment open and the store unchanged. -/
theorem C3_amended (now : Ms) (u : Nat) (b : String) (s : Store) (r : Segment)
    (rest : List Segment)
    (hhead : openSegmentsFor u s = r :: rest)
    (hstale : isTimerFromPreviousDay r.startZeit now = true)
    (hempty : (openSegmentsFor u (handleStaleTimer r.id u r.startZeit s)).isEmpty = true) :
    startSegment now u s = (.alreadyActive, s) ∧
    pauseSegment now u b s = (.autoEnded, s) ∧
    (∃ g ∈ (pauseSegment now u b s).2.segments, g.id = r.id ∧ g.endZeit = none) ∧
    endWorkday now u b s = (.autoEnded, handleStaleTimer r.id u r.startZeit s) := by
  have hne : openSegmentsFor u s ≠ [] := by
    rw [hhead]
    exact List.cons_ne_nil r rest
  have hropen : r ∈ s.segments ∧ r.endZeit = none := by
    have hr : r ∈ openSegmentsFor u s := by
      rw [hhead]
      exact List.mem_cons_self r rest
    have := List.mem_filter.mp hr
    refine ⟨this.1, ?_⟩
    have hb := this.2
    simp only [Bool.and_eq_true, beq_iff_eq] at hb
    exact hb.2
  have hpause : pauseSegment now u b s = (.autoEnded, s) := by
    unfold pauseSegment
    rw [hhead]
    simp [hstale, hempty]
  refine ⟨?_, hpause, ?_, ?_⟩
  · unfold startSegment
    rw [if_neg]
    intro hc
    rw [List.isEmpty_iff] at hc
    exact hne hc
  · rw [hpause]
    exact ⟨r, hropen.1, rfl, hropen.2⟩
  · unfold endWorkday
    rw [hhead]
    simp [hstale, hempty]

/-- Witness for C3 amended, at the same concrete stale-segment store. -/
theorem C3_amended_witness :
    openSegmentsFor 7 ⟨[⟨1, 7, 32400000, none, "w"⟩], 2⟩ =
      (⟨1, 7, 32400000, none, "w"⟩ : Segment) :: [] ∧
    isTimerFromPreviousDay 32400000 115200000 = true ∧
    (openSegmentsFor 7 (handleStaleTimer 1 7 32400000
      ⟨[⟨1, 7, 32400000, none, "w"⟩], 2⟩)).isEmpty = true ∧
    (startSegment 115200000 7 ⟨[⟨1, 7, 32400000, none, "w"⟩], 2⟩ =
        (StartResult.alreadyActive, ⟨[⟨1, 7, 32400000, none, "w"⟩], 2⟩) ∧
      pauseSegment 115200000 7 "n" ⟨[⟨1, 7, 32400000, none, "w"⟩], 2⟩ =
        (PauseResult.autoEnded, ⟨[⟨1, 7, 32400000, none, "w"⟩], 2⟩) ∧
      (∃ g ∈ (pauseSegment 115200000 7 "n" ⟨[⟨1, 7, 32400000, none, "w"⟩], 2⟩).2.segments,
        g.id = 1 ∧ g.endZeit = none) ∧
      endWorkday 115200000 7 "n" ⟨[⟨1, 7, 32400000, none, "w"⟩], 2⟩ =
        (EndResult.autoEnded, handleStaleTimer 1 7 32400000
          ⟨[⟨1, 7, 32400000, none, "w"⟩], 2⟩)) :=
  ⟨by decide, by decide, by decide,
    C3_amended 115200000 7 "n" ⟨[⟨1, 7, 32400000, none, "w"⟩], 2⟩
      ⟨1, 7, 32400000, none, "w"⟩ [] (by decide) (by decide) (by decide)⟩

/-- Counterexample to C4: on the `status` path the reconciler's two writes run on
an autocommit connection (no `beginTransaction`). A failure raised between the
two statements leaves the stale segment closed at the cutoff with NO notification
row inserted — neither "both persist" nor "neither persists". -/
theorem C4_counterexample :
    statusReconcileRun (some 1) 1 7 32400000 ⟨[⟨1, 7, 32400000, none, "w"⟩], 2⟩ ≠
      ⟨[⟨1, 7, 32400000, none, "w"⟩], 2⟩ ∧
    statusReconcileRun (some 1) 1 7 32400000 ⟨[⟨1, 7, 32400000, none, "w"⟩], 2⟩ ≠
      statusReconcileRun none 1 7 32400000 ⟨[⟨1, 7, 32400000, none, "w"⟩], 2⟩ ∧
    (∃ g ∈ (statusReconcileRun (some 1) 1 7 32400000
        ⟨[⟨1, 7, 32400000, none, "w"⟩], 2⟩).segments,
      g.id = 1 ∧ g.endZeit = some (getMidnightCutoffTime 32400000)) ∧
    (∀ g ∈ (statusReconcileRun (some 1) 1 7 32400000
        ⟨[⟨1, 7, 32400000, none, "w"⟩], 2⟩).segments,
      g.bericht ≠ autoCutoffBericht) := by
  decide

/-- C4 amended: reconciliation is atomic on the `pause` and `endWorkday` paths,
which wrap `handleStaleTimer` in a transaction rolled back on failure — both
writes persist or neither does. On the `status` path the two writes autocommit
individually: without a failure both persist, but a failure between them persists
exactly the close and not the notification. -/
theorem C4_amended (k timerId u : Nat) (st : Ms) (s : Store) :
    txnReconcileRun (some k) timerId u st s = s ∧
    txnReconcileRun none timerId u st s = handleStaleTimer timerId u st s ∧
    statusReconcileRun none timerId u st s = handleStaleTimer timerId u st s ∧
    statusReconcileRun (some 1) timerId u st s =
      setEndZeit timerId (getMidnightCutoffTime st) s := by
  refine ⟨rfl, rfl, rfl, rfl⟩

/-- Counterexample to C5: user 7 has a single OPEN segment started today at 09:00;
at 10:00 the claim's formula credits the open hour (now − startTime = 3600000 ms),
but the `status` endpoint sums only closed rows and reports 0. -/
theorem C5_counterexample :
    (statusOp 36000000 7 [] ⟨[⟨1, 7, 32400000, none, ""⟩], 2⟩).1.totalDurationMs = 0 ∧
    specDailyWorkedMs 36000000 7 ⟨[⟨1, 7, 32400000, none, ""⟩], 2⟩ = 3600000 ∧
    (statusOp 36000000 7 [] ⟨[⟨1, 7, 32400000, none, ""⟩], 2⟩).1.totalDurationMs ≠
      specDailyWorkedMs 36000000 7 ⟨[⟨1, 7, 32400000, none, ""⟩], 2⟩ := by
  decide

/-- C5 amended: `totalDurationMs` (and `getTodayWorkTimeHelper`) equal the sum of
`endZeit − startZeit` over the CLOSED segments whose `startZeit` falls on today's
local date; a still-open segment contributes nothing to the total (its start time
is only returned separately as `activeSegmentStartTime`). Stated for stores whose
closed rows satisfy the end-after-start invariant and whose open rows for the
user started today (so no cutoff interferes). -/
theorem C5_amended (now : Ms) (u : Nat) (session : List Nat) (s : Store)
    (hwf : ∀ g ∈ s.segments, ∀ e, g.endZeit = some e → g.startZeit ≤ e)
    (hfresh : ∀ g ∈ openSegmentsFor u s, dayOf g.startZeit = dayOf now) :
    (statusOp now u session s).1.totalDurationMs =
      ((todayClosedRows now u s).map segDurationMs).sum ∧
    getTodayWorkTimeHelper now u s = ((todayClosedRows now u s).map segDurationMs).sum := by
  have hsum : getTodayWorkTimeHelper now u s =
      ((todayClosedRows now u s).map segDurationMs).sum := by
    unfold getTodayWorkTimeHelper
    exact sumPositive_eq_sum _ (todayClosedRows_duration_nonneg now u s hwf)
  refine ⟨?_, hsum⟩
  have hresp : (statusOp now u session s).1.totalDurationMs =
      getTodayWorkTimeHelper now u s := by
    unfold statusOp
    cases hopen : openSegmentsFor u s with
    | nil => rfl
    | cons r rest =>
      have hrfresh : dayOf r.startZeit = dayOf now := by
        apply hfresh
        rw [hopen]
        exact List.mem_cons_self r rest
      have hnot : isTimerFromPreviousDay r.startZeit now = false := by
        unfold isTimerFromPreviousDay
        simp [hrfresh]
      simp only [hnot, Bool.false_eq_true, if_false]
      rfl
  rw [hresp, hsum]

/-- Witness for C5 amended: one closed segment (09:00–10:00) and one open segment
(10:16:40–) today; the reported total is the closed hour only. -/
theorem C5_amended_witness :
    (∀ g ∈ (⟨[⟨1, 7, 32400000, some 36000000, "a"⟩, ⟨2, 7, 37000000, none, ""⟩],
        3⟩ : Store).segments, ∀ e, g.endZeit = some e → g.startZeit ≤ e) ∧
    (∀ g ∈ openSegmentsFor 7 ⟨[⟨1, 7, 32400000, some 36000000, "a"⟩,
        ⟨2, 7, 37000000, none, ""⟩], 3⟩, dayOf g.startZeit = dayOf 38000000) ∧
    ((statusOp 38000000 7 [] ⟨[⟨1, 7, 32400000, some 36000000, "a"⟩,
        ⟨2, 7, 37000000, none, ""⟩], 3⟩).1.totalDurationMs =
      ((todayClosedRows 38000000 7 ⟨[⟨1, 7, 32400000, some 36000000, "a"⟩,
        ⟨2, 7, 37000000, none, ""⟩], 3⟩).map segDurationMs).sum ∧
    getTodayWorkTimeHelper 38000000 7 ⟨[⟨1, 7, 32400000, some 36000000, "a"⟩,
        ⟨2, 7, 37000000, none, ""⟩], 3⟩ =
      ((todayClosedRows 38000000 7 ⟨[⟨1, 7, 32400000, some 36000000, "a"⟩,
        ⟨2, 7, 37000000, none, ""⟩], 3⟩).map segDurationMs).sum) :=
  ⟨by decide, by decide,
    C5_amended 38000000 7 [] ⟨[⟨1, 7, 32400000, some 36000000, "a"⟩,
      ⟨2, 7, 37000000, none, ""⟩], 3⟩ (by decide) (by decide)⟩

/-- C6: when `endWorkday` closes an open segment (started today, duration at
least 30 s), the closed segment is committed to the store on BOTH quota branches;
a total below 8 h yields the soft `moreTime` outcome carrying worked and
remaining time, a total at least 8 h (equality included) yields `quotaMet`, and
`remaining ≤ 0` holds exactly when `worked ≥ 8h`. -/
theorem C6_endworkday_quota (now : Ms) (u : Nat) (note : String) (s : Store)
    (r : Segment) (rest : List Segment)
    (hhead : openSegmentsFor u s = r :: rest)
    (hfresh : dayOf r.startZeit = dayOf now)
    (hdur : MINIMUM_DURATION_MS ≤ (now : Int) - (r.startZeit : Int)) :
    endWorkday now u note s =
      (if workdayDurationMs -
          getTodayWorkTimeHelper now u (setEndZeitBericht r.id now note s) ≤ 0 then
        EndResult.quotaMet (getTodayWorkTimeHelper now u (setEndZeitBericht r.id now note s))
       else
        EndResult.moreTime (getTodayWorkTimeHelper now u (setEndZeitBericht r.id now note s))
          (workdayDurationMs -
            getTodayWorkTimeHelper now u (setEndZeitBericht r.id now note s)),
       setEndZeitBericht r.id now note s) ∧
    (∃ g ∈ (endWorkday now u note s).2.segments,
      g.id = r.id ∧ g.startZeit = r.startZeit ∧ g.endZeit = some now ∧ g.bericht = note) ∧
    (workdayDurationMs -
        getTodayWorkTimeHelper now u (setEndZeitBericht r.id now note s) ≤ 0 ↔
      workdayDurationMs ≤ getTodayWorkTimeHelper now u (setEndZeitBericht r.id now note s)) := by
  have hnot : isTimerFromPreviousDay r.startZeit now = false := by
    unfold isTimerFromPreviousDay
    simp [hfresh]
  have hmain : endWorkday now u note s =
      (if workdayDurationMs -
          getTodayWorkTimeHelper now u (setEndZeitBericht r.id now note s) ≤ 0 then
        EndResult.quotaMet (getTodayWorkTimeHelper now u (setEndZeitBericht r.id now note s))
       else
        EndResult.moreTime (getTodayWorkTimeHelper now u (setEndZeitBericht r.id now note s))
          (workdayDurationMs -
            getTodayWorkTimeHelper now u (setEndZeitBericht r.id now note s)),
       setEndZeitBericht r.id now note s) := by
    unfold endWorkday
    rw [hhead]
    simp only [hnot, Bool.false_eq_true, if_false]
    unfold endWorkdayFinish
    rw [if_neg (not_lt.mpr hdur)]
    by_cases hq : workdayDurationMs -
        getTodayWorkTimeHelper now u (setEndZeitBericht r.id now note s) ≤ 0
    · rw [if_pos hq, if_pos hq]
    · rw [if_neg hq, if_neg hq]
  refine ⟨hmain, ?_, by omega⟩
  have hrmem : r ∈ s.segments := by
    have hr : r ∈ openSegmentsFor u s := by
      rw [hhead]
      exact List.mem_cons_self r rest
    exact (List.mem_filter.mp hr).1
  have hstore : (endWorkday now u note s).2 = setEndZeitBericht r.id now note s := by
    rw [hmain]
  rw [hstore]
  refine ⟨{ r with endZeit := some now, bericht := note }, ?_, rfl, rfl, rfl, rfl⟩
  unfold setEndZeitBericht
  apply List.mem_map.mpr
  exact ⟨r, hrmem, by simp⟩

/-- Witness for C6: a 30.000 s segment closed at the boundary (kept, not
discarded); the day's total is below 8 h so the soft `moreTime` outcome is
reported while the closed segment is persisted. -/
theorem C6_endworkday_quota_witness :
    openSegmentsFor 7 ⟨[⟨1, 7, 32400000, none, ""⟩], 2⟩ =
      (⟨1, 7, 32400000, none, ""⟩ : Segment) :: [] ∧
    dayOf 32400000 = dayOf 32430000 ∧
    MINIMUM_DURATION_MS ≤ (32430000 : Int) - (32400000 : Int) ∧
    (endWorkday 32430000 7 "n" ⟨[⟨1, 7, 32400000, none, ""⟩], 2⟩ =
      (if workdayDurationMs - getTodayWorkTimeHelper 32430000 7
          (setEndZeitBericht 1 32430000 "n" ⟨[⟨1, 7, 32400000, none, ""⟩], 2⟩) ≤ 0 then
        EndResult.quotaMet (getTodayWorkTimeHelper 32430000 7
          (setEndZeitBericht 1 32430000 "n" ⟨[⟨1, 7, 32400000, none, ""⟩], 2⟩))
       else
        EndResult.moreTime (getTodayWorkTimeHelper 32430000 7
          (setEndZeitBericht 1 32430000 "n" ⟨[⟨1, 7, 32400000, none, ""⟩], 2⟩))
          (workdayDurationMs - getTodayWorkTimeHelper 32430000 7
            (setEndZeitBericht 1 32430000 "n" ⟨[⟨1, 7, 32400000, none, ""⟩], 2⟩)),
       setEndZeitBericht 1 32430000 "n" ⟨[⟨1, 7, 32400000, none, ""⟩], 2⟩) ∧
    (∃ g ∈ (endWorkday 32430000 7 "n" ⟨[⟨1, 7, 32400000, none, ""⟩], 2⟩).2.segments,
      g.id = 1 ∧ g.startZeit = 32400000 ∧ g.endZeit = some 32430000 ∧ g.bericht = "n") ∧
    (workdayDurationMs - getTodayWorkTimeHelper 32430000 7
        (setEndZeitBericht 1 32430000 "n" ⟨[⟨1, 7, 32400000, none, ""⟩], 2⟩) ≤ 0 ↔
      workdayDurationMs ≤ getTodayWorkTimeHelper 32430000 7
        (setEndZeitBericht 1 32430000 "n" ⟨[⟨1, 7, 32400000, none, ""⟩], 2⟩))) :=
  ⟨by decide, by decide, by decide,
    C6_endworkday_quota 32430000 7 "n" ⟨[⟨1, 7, 32400000, none, ""⟩], 2⟩
      ⟨1, 7, 32400000, none, ""⟩ [] (by decide) (by decide) (by decide)⟩

/-- C7: pausing the open segment created by `start` computes
`duration = now − startTime`. Strictly below 30 s the segment is DELETED and a
soft `discarded` outcome reported, leaving the row list — and hence the daily
total — exactly as before `start`; at 30.000 s or more the segment is kept,
closed with `endZeit = now` and the submitted note. -/
theorem C7_pause_threshold (now1 now2 : Ms) (u : Nat) (note : String) (s : Store)
    (hnoopen : openSegmentsFor u s = [])
    (hfresh : IdsFresh s)
    (hsameday : dayOf now1 = dayOf now2) :
    ((now2 : Int) - (now1 : Int) < MINIMUM_DURATION_MS →
      pauseSegment now2 u note (startSegment now1 u s).2 =
        (.discarded, deleteSegmentById s.nextId (startSegment now1 u s).2) ∧
      (pauseSegment now2 u note (startSegment now1 u s).2).2.segments = s.segments ∧
      getTodayWorkTimeHelper now2 u (pauseSegment now2 u note (startSegment now1 u s).2).2 =
        getTodayWorkTimeHelper now2 u s) ∧
    (MINIMUM_DURATION_MS ≤ (now2 : Int) - (now1 : Int) →
      pauseSegment now2 u note (startSegment now1 u s).2 =
        (.ok, setEndZeitBericht s.nextId now2 note (startSegment now1 u s).2) ∧
      ∃ g ∈ (pauseSegment now2 u note (startSegment now1 u s).2).2.segments,
        g.id = s.nextId ∧ g.startZeit = now1 ∧ g.endZeit = some now2 ∧ g.bericht = note) := by
  have hstart : (startSegment now1 u s).2 = insertSegment u now1 none "" s := by
    unfold startSegment
    rw [if_pos (by rw [List.isEmpty_iff]; exact hnoopen)]
  have hopen' : openSegmentsFor u (insertSegment u now1 none "" s) =
      [⟨s.nextId, u, now1, none, ""⟩] := by
    rw [openSegmentsFor_insert_open, hnoopen]
    rfl
  have hnot : isTimerFromPreviousDay now1 now2 = false := by
    unfold isTimerFromPreviousDay
    simp [hsameday]
  constructor
  · intro hlt
    have hp : pauseSegment now2 u note (startSegment now1 u s).2 =
        (.discarded, deleteSegmentById s.nextId (startSegment now1 u s).2) := by
      rw [hstart]
      unfold pauseSegment
      rw [hopen']
      simp only [hnot, Bool.false_eq_true, if_false]
      unfold pauseFinish
      rw [if_pos hlt]
    have hsegs : (pauseSegment now2 u note (startSegment now1 u s).2).2.segments =
        s.segments := by
      rw [hp]
      simp only
      rw [hstart]
      exact delete_insert_segments u now1 none "" s hfresh
    exact ⟨hp, hsegs, getTodayWorkTimeHelper_congr now2 u _ s hsegs⟩
  · intro hge
    have hp : pauseSegment now2 u note (startSegment now1 u s).2 =
        (.ok, setEndZeitBericht s.nextId now2 note (startSegment now1 u s).2) := by
      rw [hstart]
      unfold pauseSegment
      rw [hopen']
      simp only [hnot, Bool.false_eq_true, if_false]
      unfold pauseFinish
      rw [if_neg (not_lt.mpr hge)]
    refine ⟨hp, ?_⟩
    rw [hp]
    simp only
    rw [hstart]
    refine ⟨⟨s.nextId, u, now1, some now2, note⟩, ?_, rfl, rfl, rfl, rfl⟩
    unfold setEndZeitBericht insertSegment
    simp only [List.map_append]
    apply List.mem_append_right
    simp

/-- Witness for C7: start at 09:00:00, pause 10 s later — the segment is
discarded and the daily total is unchanged (the empty store's total). -/
theorem C7_pause_threshold_witness :
    openSegmentsFor 7 ⟨[], 1⟩ = [] ∧
    IdsFresh ⟨[], 1⟩ ∧
    dayOf 32400000 = dayOf 32410000 ∧
    (((32410000 : Int) - (32400000 : Int) < MINIMUM_DURATION_MS →
      pauseSegment 32410000 7 "n" (startSegment 32400000 7 ⟨[], 1⟩).2 =
        (PauseResult.discarded,
          deleteSegmentById 1 (startSegment 32400000 7 ⟨[], 1⟩).2) ∧
      (pauseSegment 32410000 7 "n" (startSegment 32400000 7 ⟨[], 1⟩).2).2.segments =
        ([] : List Segment) ∧
      getTodayWorkTimeHelper 32410000 7
          (pauseSegment 32410000 7 "n" (startSegment 32400000 7 ⟨[], 1⟩).2).2 =
        getTodayWorkTimeHelper 32410000 7 ⟨[], 1⟩) ∧
    (MINIMUM_DURATION_MS ≤ (32410000 : Int) - (32400000 : Int) →
      pauseSegment 32410000 7 "n" (startSegment 32400000 7 ⟨[], 1⟩).2 =
        (PauseResult.ok,
          setEndZeitBericht 1 32410000 "n" (startSegment 32400000 7 ⟨[], 1⟩).2) ∧
      ∃ g ∈ (pauseSegment 32410000 7 "n" (startSegment 32400000 7 ⟨[], 1⟩).2).2.segments,
        g.id = 1 ∧ g.startZeit = 32400000 ∧ g.endZeit = some 32410000 ∧ g.bericht = "n")) :=
  ⟨by decide, (by intro g hg; cases hg), by decide,
    C7_pause_threshold 32400000 32410000 7 "n" ⟨[], 1⟩ (by decide)
      (by intro g hg; cases hg) (by decide)⟩

/-- C8: `getVacationHoursForPeriodHelper` equals 8 times the number of weekdays
(Mon–Fri, UTC calendar days) lying inside both the absence range and the
requested period, summed over the user's Vacation absences (overlap-filtering by
the SQL query changes nothing, since non-overlapping absences contribute zero);
in particular a Mon–Fri vacation wholly inside the period yields exactly 40 h. -/
theorem C8_vacation_hours (abw : List Abwesenheit) (u pStart pEnd : Nat) :
    getVacationHoursForPeriodHelper abw u pStart pEnd = specVacationHours abw u pStart pEnd ∧
    getVacationHoursForPeriodHelper [⟨7, 4, 8, AbwesenheitTyp.urlaub⟩] 7 0 30 = 40 := by
  constructor
  · unfold getVacationHoursForPeriodHelper specVacationHours
    rw [foldl_add_eq_sum, Nat.zero_add]
    have hfun : (fun a : Abwesenheit =>
        countHoursFrom pStart pEnd a.startDatum (a.endDatum + 1 - a.startDatum)) =
        (fun a : Abwesenheit =>
          HOURS_PER_URLAUBSTAG_GLOBAL * specVacationDayCount pStart pEnd a.startDatum a.endDatum) :=
      funext (fun a => countHoursFrom_absence pStart pEnd a.startDatum a.endDatum)
    rw [hfun]
    have hpred2 : (fun a : Abwesenheit =>
        a.benutzerId == u && a.typ == AbwesenheitTyp.urlaub &&
          decide (a.startDatum ≤ pEnd) && decide (pStart ≤ a.endDatum)) =
        (fun a : Abwesenheit =>
          (a.benutzerId == u && a.typ == AbwesenheitTyp.urlaub) &&
            (decide (a.startDatum ≤ pEnd) && decide (pStart ≤ a.endDatum))) := by
      funext a
      rw [Bool.and_assoc]
    rw [hpred2]
    apply sum_map_filter_and
    intro a hpa hqa
    have hno : ¬(a.startDatum ≤ pEnd ∧ pStart ≤ a.endDatum) := by
      intro hc
      simp [hc.1, hc.2] at hqa
    rw [specVacationDayCount_zero_of_no_overlap pStart pEnd a.startDatum a.endDatum hno]
    exact Nat.mul_zero _
  · decide

/-- Counterexample to C9: the admin single-user profile endpoint
(`GET /api/admin/users/:id/profile`) computes `allowance − used` WITHOUT flooring
at 0: a user with allowance 0 and one weekday of vacation is reported −1
remaining days. -/
theorem C9_counterexample :
    adminProfileRemainingUrlaubstage 0 [⟨7, 4, 4, AbwesenheitTyp.urlaub⟩] 7 0 30 = -1 ∧
    adminProfileRemainingUrlaubstage 0 [⟨7, 4, 4, AbwesenheitTyp.urlaub⟩] 7 0 30 < 0 := by
  have h8 : getVacationHoursForPeriodHelper [⟨7, 4, 4, AbwesenheitTyp.urlaub⟩] 7 0 30 = 8 := by
    decide
  have hval : adminProfileRemainingUrlaubstage 0 [⟨7, 4, 4, AbwesenheitTyp.urlaub⟩] 7 0 30 =
      -1 := by
    unfold adminProfileRemainingUrlaubstage
    rw [h8]
    norm_num [HOURS_PER_URLAUBSTAG_GLOBAL]
  refine ⟨hval, ?_⟩
  rw [hval]
  norm_num

/-- C9 amended: the self-profile path and the admin user-list path floor the
remaining vacation days at 0 (`Math.max(0, …)`), so those reports are never
negative; the admin single-user profile path reports the raw difference
`allowance − used` without the floor and can go negative. -/
theorem C9_amended (allowance : Nat) (abw : List Abwesenheit) (u yStart yEnd : Nat) :
    0 ≤ selfProfileRemainingUrlaubstage allowance abw u yStart yEnd ∧
    0 ≤ adminListRemainingUrlaubstage allowance abw u yStart yEnd ∧
    selfProfileRemainingUrlaubstage allowance abw u yStart yEnd =
      max 0 ((allowance : ℚ) -
        (getVacationHoursForPeriodHelper abw u yStart yEnd : ℚ) /
          (HOURS_PER_URLAUBSTAG_GLOBAL : ℚ)) ∧
    adminProfileRemainingUrlaubstage allowance abw u yStart yEnd =
      (allowance : ℚ) -
        (getVacationHoursForPeriodHelper abw u yStart yEnd : ℚ) /
          (HOURS_PER_URLAUBSTAG_GLOBAL : ℚ) :=
  ⟨le_max_left 0 _, le_max_left 0 _, rfl, rfl⟩

/-- C10: with a stale open segment and a fresh session, the first `status` call
performs the auto-cutoff (persisting the reconciled store) and reports
`autoCutoffDetected = true`; the immediately following call finds no open segment,
reports `false`, and leaves the store untouched — the notification fires exactly
once per stale segment id. -/
theorem C10_status_idempotent (now now2 : Ms) (u : Nat) (session : List Nat) (s : Store)
    (r : Segment)
    (hopen : openSegmentsFor u s = [r])
    (hstale : isTimerFromPreviousDay r.startZeit now = true)
    (hsess : session.contains r.id = false) :
    (statusOp now u session s).1.autoCutoffDetected = true ∧
    (statusOp now u session s).2.1 = handleStaleTimer r.id u r.startZeit s ∧
    openSegmentsFor u (statusOp now u session s).2.1 = [] ∧
    (statusOp now2 u (statusOp now u session s).2.2 (statusOp now u session s).2.1
      ).1.autoCutoffDetected = false ∧
    (statusOp now2 u (statusOp now u session s).2.2 (statusOp now u session s).2.1).2.1 =
      (statusOp now u session s).2.1 := by
  have hnotmem : r.id ∉ session := by simpa using hsess
  have hfirst : statusOp now u session s =
      statusFinish now u true (handleStaleTimer r.id u r.startZeit s) (r.id :: session) := by
    unfold statusOp
    rw [hopen]
    simp [hstale, hnotmem]
  have hs1 : (statusOp now u session s).2.1 = handleStaleTimer r.id u r.startZeit s := by
    rw [hfirst]
    rfl
  have hempty : openSegmentsFor u (statusOp now u session s).2.1 = [] := by
    rw [hs1]
    exact openSegmentsFor_handleStaleTimer_of_single u r s hopen
  have hgen : ∀ (sess1 : List Nat) (s1 : Store), openSegmentsFor u s1 = [] →
      statusOp now2 u sess1 s1 = statusFinish now2 u false s1 sess1 := by
    intro sess1 s1 h1
    unfold statusOp
    rw [h1]
  have hsecond : statusOp now2 u (statusOp now u session s).2.2
      (statusOp now u session s).2.1 =
      statusFinish now2 u false (statusOp now u session s).2.1
        (statusOp now u session s).2.2 :=
    hgen _ _ hempty
  refine ⟨?_, hs1, hempty, ?_, ?_⟩
  · rw [hfirst]
    rfl
  · rw [hsecond]
    rfl
  · rw [hsecond]
    rfl

/-- Witness for C10 at the concrete stale-segment store of C1's scenario. -/
theorem C10_status_idempotent_witness :
    openSegmentsFor 7 ⟨[⟨1, 7, 32400000, none, "w"⟩], 2⟩ =
      [(⟨1, 7, 32400000, none, "w"⟩ : Segment)] ∧
    isTimerFromPreviousDay 32400000 115200000 = true ∧
    ([] : List Nat).contains 1 = false ∧
    ((statusOp 115200000 7 [] ⟨[⟨1, 7, 32400000, none, "w"⟩], 2⟩).1.autoCutoffDetected =
        true ∧
      (statusOp 115200000 7 [] ⟨[⟨1, 7, 32400000, none, "w"⟩], 2⟩).2.1 =
        handleStaleTimer 1 7 32400000 ⟨[⟨1, 7, 32400000, none, "w"⟩], 2⟩ ∧
      openSegmentsFor 7 (statusOp 115200000 7 [] ⟨[⟨1, 7, 32400000, none, "w"⟩], 2⟩).2.1 =
        [] ∧
      (statusOp 115210000 7
        (statusOp 115200000 7 [] ⟨[⟨1, 7, 32400000, none, "w"⟩], 2⟩).2.2
        (statusOp 115200000 7 [] ⟨[⟨1, 7, 32400000, none, "w"⟩], 2⟩).2.1
        ).1.autoCutoffDetected = false ∧
      (statusOp 115210000 7
        (statusOp 115200000 7 [] ⟨[⟨1, 7, 32400000, none, "w"⟩], 2⟩).2.2
        (statusOp 115200000 7 [] ⟨[⟨1, 7, 32400000, none, "w"⟩], 2⟩).2.1).2.1 =
        (statusOp 115200000 7 [] ⟨[⟨1, 7, 32400000, none, "w"⟩], 2⟩).2.1) :=
  ⟨by decide, by decide, by decide,
    C10_status_idempotent 115200000 115210000 7 [] ⟨[⟨1, 7, 32400000, none, "w"⟩], 2⟩
      ⟨1, 7, 32400000, none, "w"⟩ (by decide) (by decide) (by decide)⟩

end Zeiterfassung
